import Mathlib

/-!
Verification of the LinkUp user-service backend (Express + Firestore).

The development shallowly embeds the route handlers and helper functions of
the repository: JSON-ish attribute maps become association lists over a small
value type, Firestore documents become optional records, and each handler
becomes a pure function from the relevant request data and stored document to
a response tag plus the document state afterwards.
-/

set_option autoImplicit false

namespace LinkUp

/-- Model of a JavaScript value as it occurs in the request and document
attribute maps of this service: strings, numbers, booleans, string arrays
(the providers field), null, and undefined. -/
inductive JVal where
  | str (s : String)
  | num (n : Int)
  | jbool (b : Bool)
  | arr (xs : List String)
  | null
  | undef
deriving DecidableEq, Repr

/-- A JavaScript object, modelled as an association list keyed by field name.
Keys of a real JS object are unique; theorems that need this take a Nodup
hypothesis on the key list. -/
abbrev Obj := List (String × JVal)

/-- Field lookup in an object, first match wins. -/
def lookupObj (o : Obj) (k : String) : Option JVal :=
  match o with
  | [] => none
  | (k0, v) :: rest => if k0 = k then some v else lookupObj rest k

/-- Field assignment: replace the value at an existing key, or append the
binding when the key is absent. -/
def setKey (o : Obj) (k : String) (v : JVal) : Obj :=
  match o with
  | [] => [(k, v)]
  | (k0, v0) :: rest => if k0 = k then (k0, v) :: rest else (k0, v0) :: setKey rest k v

/-- Model of the JavaScript String.prototype.trim: drop leading and trailing
whitespace characters. Written over the character list so that it evaluates
inside the kernel. -/
def jsTrim (s : String) : String :=
  String.mk (((s.data.dropWhile Char.isWhitespace).reverse.dropWhile Char.isWhitespace).reverse)

/-- One loop iteration of mergeUserData (oauth routes): an undefined value is
skipped, a string is trimmed and written only when the trim is non-empty, any
other non-null value is written, and null is skipped. -/
def mergeStep (result : Obj) (kv : String × JVal) : Obj :=
  match kv.2 with
  | JVal.undef => result
  | JVal.null => result
  | JVal.str s => if jsTrim s = "" then result else setKey result kv.1 (JVal.str (jsTrim s))
  | v => setKey result kv.1 v

/-- mergeUserData from the oauth routes: start from a copy of the existing
document (or an empty object when none exists) and fold the incoming entries
with mergeStep. -/
def mergeUserData (existing : Option Obj) (incoming : Obj) : Obj :=
  List.foldl mergeStep (existing.getD []) incoming

/-- An incoming value that the merge rule silently drops: undefined, null, or
a string whose trim is empty. -/
def isBlankVal (v : JVal) : Bool :=
  match v with
  | JVal.undef => true
  | JVal.null => true
  | JVal.str s => jsTrim s = ""
  | _ => false

/-- The value actually stored when the merge rule accepts an incoming value:
strings are stored trimmed, everything else verbatim. -/
def writtenVal (v : JVal) : JVal :=
  match v with
  | JVal.str s => JVal.str (jsTrim s)
  | v => v

theorem lookup_setKey_self (o : Obj) (k : String) (v : JVal) :
    lookupObj (setKey o k v) k = some v := by
  induction o with
  | nil => simp [setKey, lookupObj]
  | cons hd tl ih =>
    obtain ⟨k0, v0⟩ := hd
    by_cases h : k0 = k <;> simp [setKey, lookupObj, h, ih]

theorem lookup_setKey_ne (o : Obj) (k k' : String) (v : JVal) (h : k' ≠ k) :
    lookupObj (setKey o k' v) k = lookupObj o k := by
  induction o with
  | nil => simp [setKey, lookupObj, h]
  | cons hd tl ih =>
    obtain ⟨k0, v0⟩ := hd
    by_cases h0 : k0 = k' <;> simp [setKey, lookupObj, h0, ih]
    · subst h0
      simp [h]

theorem mergeStep_lookup_ne (acc : Obj) (kv : String × JVal) (k : String)
    (h : kv.1 ≠ k) : lookupObj (mergeStep acc kv) k = lookupObj acc k := by
  obtain ⟨k1, v1⟩ := kv
  cases v1 <;> simp [mergeStep]
  · split <;> simp [lookup_setKey_ne _ _ _ _ h]
  all_goals exact lookup_setKey_ne _ _ _ _ h

theorem foldl_mergeStep_not_mem (l : Obj) (acc : Obj) (k : String)
    (h : k ∉ l.map Prod.fst) :
    lookupObj (List.foldl mergeStep acc l) k = lookupObj acc k := by
  induction l generalizing acc with
  | nil => rfl
  | cons hd tl ih =>
    simp only [List.map_cons, List.mem_cons] at h
    push_neg at h
    rw [List.foldl_cons, ih _ h.2, mergeStep_lookup_ne _ _ _ (Ne.symm h.1)]

theorem lookup_none_not_mem (l : Obj) (k : String) (h : lookupObj l k = none) :
    k ∉ l.map Prod.fst := by
  induction l with
  | nil => simp
  | cons hd tl ih =>
    obtain ⟨k0, v0⟩ := hd
    by_cases h0 : k0 = k
    · simp [lookupObj, h0] at h
    · simp only [lookupObj, h0, if_false] at h
      simp [Ne.symm h0, ih h]

theorem nodup_lookup_some_split (l : Obj) (k : String) (v : JVal)
    (hnd : (l.map Prod.fst).Nodup) (h : lookupObj l k = some v) :
    ∀ acc : Obj, lookupObj (List.foldl mergeStep acc l) k =
      if isBlankVal v then lookupObj acc k else some (writtenVal v) := by
  induction l generalizing v with
  | nil => simp [lookupObj] at h
  | cons hd tl ih =>
    obtain ⟨k1, v1⟩ := hd
    intro acc
    simp only [List.map_cons, List.nodup_cons] at hnd
    by_cases h1 : k1 = k
    · subst h1
      simp only [lookupObj, if_true, eq_self_iff_true, Option.some.injEq] at h
      subst h
      rw [List.foldl_cons, foldl_mergeStep_not_mem _ _ _ hnd.1]
      cases v1 with
      | str s =>
        by_cases hs : jsTrim s = "" <;>
          simp [mergeStep, isBlankVal, writtenVal, hs, lookup_setKey_self]
      | num n => simp [mergeStep, isBlankVal, writtenVal, lookup_setKey_self]
      | jbool b => simp [mergeStep, isBlankVal, writtenVal, lookup_setKey_self]
      | arr xs => simp [mergeStep, isBlankVal, writtenVal, lookup_setKey_self]
      | null => simp [mergeStep, isBlankVal, writtenVal]
      | undef => simp [mergeStep, isBlankVal, writtenVal]
    · simp only [lookupObj, h1, if_false] at h
      rw [List.foldl_cons, ih v hnd.2 h, mergeStep_lookup_ne _ _ _ h1]

/-- C1: the merge rule of reconciliation (mergeUserData in the oauth routes)
never replaces a stored field with an empty string, a whitespace-only string,
null, or undefined: a blank incoming value leaves the field exactly as stored,
and a field changes only when the incoming map carries a non-blank value for
it (a string with non-empty trim, or a non-null non-undefined value). -/
theorem mergeUserData_never_clears (existing incoming : Obj) (k : String)
    (hnd : (incoming.map Prod.fst).Nodup) :
    (∀ v, lookupObj incoming k = some v → isBlankVal v = true →
       lookupObj (mergeUserData (some existing) incoming) k = lookupObj existing k) ∧
    (lookupObj (mergeUserData (some existing) incoming) k ≠ lookupObj existing k →
       ∃ v, lookupObj incoming k = some v ∧ isBlankVal v = false) := by
  constructor
  · intro v hv hblank
    have := nodup_lookup_some_split incoming k v hnd hv existing
    simpa [mergeUserData, hblank] using this
  · intro hchanged
    cases hv : lookupObj incoming k with
    | none =>
      exfalso
      apply hchanged
      exact foldl_mergeStep_not_mem incoming existing k (lookup_none_not_mem _ _ hv)
    | some v =>
      refine ⟨v, rfl, ?_⟩
      by_contra hb
      simp only [Bool.not_eq_false] at hb
      have := nodup_lookup_some_split incoming k v hnd hv existing
      simp only [hb, if_pos] at this
      exact hchanged (by simpa [mergeUserData] using this)

/-- Concrete stored profile used in witnesses: firstName Ana, manual provider. -/
def profAna : Obj :=
  [("firstName", JVal.str "Ana"), ("providers", JVal.arr ["manual"])]

/-- Concrete incoming attribute map whose firstName is whitespace-only and
whose photoURL is null. -/
def incBlank : Obj :=
  [("firstName", JVal.str "  "), ("photoURL", JVal.null), ("emailVerified", JVal.jbool true)]

/-- Witness for C1: merging an incoming map whose firstName is a
whitespace-only string keeps the stored firstName Ana unchanged. -/
theorem mergeUserData_never_clears_witness :
    lookupObj (mergeUserData (some profAna) incBlank) "firstName" =
      lookupObj profAna "firstName" :=
  (mergeUserData_never_clears profAna incBlank "firstName" (by decide)).1
    (JVal.str "  ") (by decide) (by decide)

/-- Insertion-ordered deduplication, the behaviour of Array.from over a
JavaScript Set built from a list: keep the first occurrence of each element,
drop later repeats. The seen accumulator holds elements already emitted. -/
def dedupAux (seen : List String) : List String → List String
  | [] => []
  | x :: rest => if x ∈ seen then dedupAux seen rest else x :: dedupAux (x :: seen) rest

/-- mergeProviders from the oauth routes: union the new provider tag into the
existing providers array without duplicates, via a Set of the concatenation. -/
def mergeProviders (existingProviders : Option (List String)) (newProvider : String) :
    List String :=
  dedupAux [] ((existingProviders.getD []) ++ [newProvider])

theorem mem_dedupAux (l : List String) (seen : List String) (x : String) :
    x ∈ dedupAux seen l ↔ x ∈ l ∧ x ∉ seen := by
  induction l generalizing seen with
  | nil => simp [dedupAux]
  | cons y rest ih =>
    by_cases hy : y ∈ seen
    · simp only [dedupAux, if_pos hy, ih, List.mem_cons]
      constructor
      · exact fun h => ⟨Or.inr h.1, h.2⟩
      · rintro ⟨hx | hx, hs⟩
        · exact absurd (hx ▸ hy) hs
        · exact ⟨hx, hs⟩
    · simp only [dedupAux, if_neg hy, List.mem_cons, ih, List.mem_cons]
      constructor
      · rintro (rfl | ⟨hx, hs⟩)
        · exact ⟨Or.inl rfl, hy⟩
        · exact ⟨Or.inr hx, fun hc => hs (Or.inr hc)⟩
      · rintro ⟨rfl | hx, hs⟩
        · exact Or.inl rfl
        · by_cases hxy : x = y
          · exact Or.inl hxy
          · exact Or.inr ⟨hx, fun hc => (by cases hc with
              | inl h => exact hxy h
              | inr h => exact hs h)⟩

theorem nodup_dedupAux (l : List String) (seen : List String) :
    (dedupAux seen l).Nodup := by
  induction l generalizing seen with
  | nil => simp [dedupAux]
  | cons y rest ih =>
    by_cases hy : y ∈ seen
    · simpa [dedupAux, hy] using ih seen
    · simp only [dedupAux, if_neg hy, List.nodup_cons]
      refine ⟨fun hc => ?_, ih (y :: seen)⟩
      exact ((mem_dedupAux rest (y :: seen) y).mp hc).2 (List.mem_cons_self y seen)

/-- C2: one reconciliation step on providers (mergeProviders) computes the
set union of the stored providers with the singleton of the new tag: a tag is
in the result exactly when it was stored or is the new tag, every tag occurs
at most once afterwards, the new tag occurs exactly once, and merging the
same provider a second time still leaves it exactly once. -/
theorem mergeProviders_union (e : List String) (p x : String) :
    (x ∈ mergeProviders (some e) p ↔ x ∈ e ∨ x = p) ∧
    (mergeProviders (some e) p).count x ≤ 1 ∧
    (mergeProviders (some e) p).count p = 1 ∧
    (mergeProviders (some (mergeProviders (some e) p)) p).count p = 1 := by
  have hmem : ∀ y : String, y ∈ mergeProviders (some e) p ↔ y ∈ e ∨ y = p := by
    intro y
    simpa [mergeProviders] using mem_dedupAux (e ++ [p]) [] y
  have hnd : (mergeProviders (some e) p).Nodup := nodup_dedupAux _ _
  have hp : p ∈ mergeProviders (some e) p := (hmem p).mpr (Or.inr rfl)
  refine ⟨hmem x, ?_, ?_, ?_⟩
  · by_cases hx : x ∈ mergeProviders (some e) p
    · exact le_of_eq (List.count_eq_one_of_mem hnd hx)
    · simp [List.count_eq_zero_of_not_mem hx]
  · exact List.count_eq_one_of_mem hnd hp
  · have hmem2 : p ∈ mergeProviders (some (mergeProviders (some e) p)) p := by
      simpa [mergeProviders] using
        (mem_dedupAux ((mergeProviders (some e) p) ++ [p]) [] p).mpr
          (by simp)
    exact List.count_eq_one_of_mem (nodup_dedupAux _ _) hmem2

/-- A meeting document as created and mutated by the meeting routes. -/
structure Meeting where
  title : String
  scheduledAt : Option String
  description : String
  ownerUid : String
  createdAt : String
  updatedAt : String
  status : String
  participants : List String
  isPublic : Bool
deriving DecidableEq, Repr

/-- Outcome of a meeting route: 404, 403, or a 200 carrying the meeting. -/
inductive MeetingRes where
  | notFound
  | forbidden
  | ok (m : Meeting)
deriving DecidableEq, Repr

/-- Whether a meeting route outcome is a success response. -/
def MeetingRes.isOk : MeetingRes → Bool
  | MeetingRes.ok _ => true
  | _ => false

/-- The active GET by id handler of the meeting routes (the public-access
revision): after the 404 check it performs no access check, and when the
requester is not yet a participant it appends the requester to participants
and persists that update. Returns the response and the stored document
afterwards. -/
def getMeetingById (stored : Option Meeting) (currentUserId : String) :
    MeetingRes × Option Meeting :=
  match stored with
  | none => (MeetingRes.notFound, none)
  | some data =>
    if currentUserId ∈ data.participants then (MeetingRes.ok data, some data)
    else
      let data2 := { data with participants := data.participants ++ [currentUserId] }
      (MeetingRes.ok data2, some data2)

/-- The superseded GET by id handler (owner or participant only revision):
denies access unless the requester owns the meeting or is already a
participant; it never consults isPublic and never mutates the document. -/
def getMeetingByIdOld (stored : Option Meeting) (ownerUid : String) : MeetingRes :=
  match stored with
  | none => MeetingRes.notFound
  | some meeting =>
    if meeting.ownerUid ≠ ownerUid ∧ ownerUid ∉ meeting.participants then
      MeetingRes.forbidden
    else MeetingRes.ok meeting

/-- Concrete private meeting owned by alice, with alice its only participant. -/
def mtgPrivate : Meeting :=
  { title := "standup"
    scheduledAt := none
    description := ""
    ownerUid := "alice"
    createdAt := "2025-01-01T00:00:00.000Z"
    updatedAt := "2025-01-01T00:00:00.000Z"
    status := "scheduled"
    participants := ["alice"]
    isPublic := false }

/-- C3 counterexample: mallory is neither the owner of mtgPrivate nor a
participant, and the meeting is not public, yet the active GET by id handler
answers with a success response instead of Forbidden, so the claimed
read-access rule fails on the code. -/
theorem getMeetingById_private_read_cex :
    mtgPrivate.isPublic = false ∧
    mtgPrivate.ownerUid ≠ "mallory" ∧
    "mallory" ∉ mtgPrivate.participants ∧
    (getMeetingById (some mtgPrivate) "mallory").fst ≠ MeetingRes.forbidden ∧
    (getMeetingById (some mtgPrivate) "mallory").fst =
      MeetingRes.ok { mtgPrivate with participants := ["alice", "mallory"] } := by
  decide

/-- C3 (amended): the active GET by id handler succeeds for every
authenticated subject once the meeting exists, returning Forbidden to no one;
the superseded revision of the handler instead returns Forbidden exactly when
the requester is neither the owner nor a participant, regardless of isPublic. -/
theorem getMeeting_access (m : Meeting) (uid : String) :
    (getMeetingById (some m) uid).fst.isOk = true ∧
    (getMeetingByIdOld (some m) uid = MeetingRes.forbidden ↔
      m.ownerUid ≠ uid ∧ uid ∉ m.participants) := by
  constructor
  · by_cases h : uid ∈ m.participants <;> simp [getMeetingById, h, MeetingRes.isOk]
  · by_cases h : m.ownerUid ≠ uid ∧ uid ∉ m.participants <;>
      simp [getMeetingByIdOld, h]

/-- C4: when an authenticated subject who is not yet a participant reads a
public meeting through the active GET by id handler, the stored participants
gain exactly one copy of that subject, and an immediately repeated read by
the same subject returns the same response and leaves the store unchanged. -/
theorem getMeetingById_autoEnroll (m : Meeting) (uid : String)
    (hpub : m.isPublic = true) (hnp : uid ∉ m.participants) :
    (getMeetingById (some m) uid).snd =
      some { m with participants := m.participants ++ [uid] } ∧
    uid ∈ (m.participants ++ [uid]) ∧
    (m.participants ++ [uid]).count uid = 1 ∧
    getMeetingById ((getMeetingById (some m) uid).snd) uid =
      getMeetingById (some m) uid := by
  have hstep : getMeetingById (some m) uid =
      (MeetingRes.ok { m with participants := m.participants ++ [uid] },
       some { m with participants := m.participants ++ [uid] }) := by
    simp [getMeetingById, hnp]
  refine ⟨by rw [hstep], by simp, ?_, ?_⟩
  · rw [List.count_append, List.count_eq_zero_of_not_mem hnp]
    simp
  · rw [hstep]
    simp [getMeetingById]

/-- Concrete public meeting owned by alice used as the C4 witness state. -/
def mtgPublic : Meeting :=
  { title := "open hours"
    scheduledAt := some "2025-02-01T10:00:00.000Z"
    description := "drop in"
    ownerUid := "alice"
    createdAt := "2025-01-01T00:00:00.000Z"
    updatedAt := "2025-01-01T00:00:00.000Z"
    status := "scheduled"
    participants := ["alice"]
    isPublic := true }

/-- Witness for C4: bob reads the public meeting mtgPublic, is enrolled once,
and a second read by bob is a no-op. -/
theorem getMeetingById_autoEnroll_witness :
    (getMeetingById (some mtgPublic) "bob").snd =
      some { mtgPublic with participants := mtgPublic.participants ++ ["bob"] } ∧
    "bob" ∈ (mtgPublic.participants ++ ["bob"]) ∧
    (mtgPublic.participants ++ ["bob"]).count "bob" = 1 ∧
    getMeetingById ((getMeetingById (some mtgPublic) "bob").snd) "bob" =
      getMeetingById (some mtgPublic) "bob" :=
  getMeetingById_autoEnroll mtgPublic "bob" rfl (by decide)

/-- Body of POST meetings as the create handler destructures it. An absent
field is none; the handler also treats an empty string as absent via the JS
or-default idiom. The isPublic field may be sent but is never read. -/
structure MeetingCreateBody where
  title : Option String
  scheduledAt : Option String
  description : Option String
  isPublic : Option Bool
deriving DecidableEq, Repr

/-- The POST meetings handler: builds the meeting with the requester as owner
and sole participant, status scheduled, isPublic hard-coded to true. -/
def createMeeting (ownerUid : String) (b : MeetingCreateBody) (now : String) : Meeting :=
  { title := match b.title with
      | some t => if t = "" then "Untitled Meeting" else t
      | none => "Untitled Meeting"
    scheduledAt := match b.scheduledAt with
      | some s => if s = "" then none else some s
      | none => none
    description := b.description.getD ""
    ownerUid := ownerUid
    createdAt := now
    updatedAt := now
    status := "scheduled"
    participants := [ownerUid]
    isPublic := true }

/-- Body of PUT meetings by id: each field is updated only when present in
the request body. -/
structure MeetingUpdateBody where
  title : Option String
  description : Option String
  scheduledAt : Option String
  status : Option String
  isPublic : Option Bool
deriving DecidableEq, Repr

/-- The field updates the PUT handler applies once the ownership check has
passed: title, description, scheduledAt, status and isPublic when present in
the body, updatedAt always; ownerUid and participants are never touched. -/
def applyMeetingUpdate (m : Meeting) (b : MeetingUpdateBody) (now : String) : Meeting :=
  { m with
    updatedAt := now
    title := match b.title with
      | some t => if t = "" then "Untitled Meeting" else t
      | none => m.title
    description := b.description.getD m.description
    scheduledAt := match b.scheduledAt with
      | some s => if s = "" then none else some s
      | none => m.scheduledAt
    status := b.status.getD m.status
    isPublic := b.isPublic.getD m.isPublic }

/-- The PUT meetings by id handler: 404 when absent, 403 when the stored
ownerUid is non-empty and differs from the requester, otherwise apply the
update and persist it. -/
def putMeeting (stored : Option Meeting) (uid : String) (b : MeetingUpdateBody)
    (now : String) : MeetingRes × Option Meeting :=
  match stored with
  | none => (MeetingRes.notFound, none)
  | some data =>
    if data.ownerUid ≠ "" ∧ data.ownerUid ≠ uid then (MeetingRes.forbidden, some data)
    else
      let data2 := applyMeetingUpdate data b now
      (MeetingRes.ok data2, some data2)

/-- C9: ownership membership is an invariant: a created meeting has its owner
among the participants, and both the auto-enrolling read and the update
preserve the owner, remove no participant, and keep the owner enrolled. -/
theorem meetingOwnerInvariant (uid viewer : String) (cb : MeetingCreateBody)
    (ub : MeetingUpdateBody) (m : Meeting) (now : String)
    (hm : m.ownerUid ∈ m.participants) :
    (createMeeting uid cb now).ownerUid ∈ (createMeeting uid cb now).participants ∧
    (∀ m2, (getMeetingById (some m) viewer).snd = some m2 →
       m2.ownerUid = m.ownerUid ∧ (∀ x ∈ m.participants, x ∈ m2.participants) ∧
       m2.ownerUid ∈ m2.participants) ∧
    (∀ m2, (putMeeting (some m) viewer ub now).snd = some m2 →
       m2.ownerUid = m.ownerUid ∧ m2.participants = m.participants ∧
       m2.ownerUid ∈ m2.participants) := by
  refine ⟨by simp [createMeeting], ?_, ?_⟩
  · intro m2 h2
    by_cases hv : viewer ∈ m.participants
    · simp only [getMeetingById, hv, if_pos, Option.some.injEq] at h2
      subst h2
      exact ⟨rfl, fun x hx => hx, hm⟩
    · simp only [getMeetingById, hv, if_neg, if_false, Option.some.injEq] at h2
      subst h2
      exact ⟨rfl, fun x hx => List.mem_append_left _ hx,
        List.mem_append_left _ hm⟩
  · intro m2 h2
    by_cases hv : m.ownerUid ≠ "" ∧ m.ownerUid ≠ viewer
    · simp only [putMeeting, if_pos hv, Option.some.injEq] at h2
      subst h2
      exact ⟨rfl, rfl, hm⟩
    · simp only [putMeeting, if_neg hv, Option.some.injEq] at h2
      subst h2
      exact ⟨rfl, rfl, by simpa [applyMeetingUpdate] using hm⟩

/-- Witness for C9 at a concrete state: a create by carol, plus a read and an
update of mtgPublic by bob, all keep the owner enrolled. -/
theorem meetingOwnerInvariant_witness :
    (createMeeting "carol" ⟨none, none, none, some false⟩ "t1").ownerUid ∈
      (createMeeting "carol" ⟨none, none, none, some false⟩ "t1").participants ∧
    (∀ m2, (getMeetingById (some mtgPublic) "bob").snd = some m2 →
       m2.ownerUid = mtgPublic.ownerUid ∧
       (∀ x ∈ mtgPublic.participants, x ∈ m2.participants) ∧
       m2.ownerUid ∈ m2.participants) ∧
    (∀ m2, (putMeeting (some mtgPublic) "bob" ⟨none, none, none, none, some false⟩ "t1").snd = some m2 →
       m2.ownerUid = mtgPublic.ownerUid ∧ m2.participants = mtgPublic.participants ∧
       m2.ownerUid ∈ m2.participants) :=
  meetingOwnerInvariant "carol" "bob" ⟨none, none, none, some false⟩
    ⟨none, none, none, none, some false⟩ mtgPublic "t1" (by decide)

/-- C10: the create handler hard-codes isPublic to true and never reads the
isPublic field of the request body, so every freshly created meeting is
public whatever the caller sent; privacy changes only through the update
handler, whose result carries the isPublic of the body when present and the
stored value otherwise. -/
theorem createMeeting_isPublic (uid : String) (cb : MeetingCreateBody)
    (now : String) (m : Meeting) (ub : MeetingUpdateBody) :
    (createMeeting uid cb now).isPublic = true ∧
    (applyMeetingUpdate m ub now).isPublic = ub.isPublic.getD m.isPublic := by
  exact ⟨rfl, rfl⟩

/-- Outcome of a user-profile route. -/
inductive UserRes where
  | forbidden
  | notFound
  | noValidFields
  | serverError
  | okRes
deriving DecidableEq, Repr

/-- The allow-listed fields of the profile update handler. -/
def allowedFields : List String := ["firstName", "lastName", "age", "email"]

/-- The GET users by uid handler: 403 when the path uid differs from the
authenticated uid, then 404 when the document is absent, else 200. The second
component is the stored document afterwards (reads never change it). -/
def getUser (stored : Option Obj) (uid requestUid : String) : UserRes × Option Obj :=
  if uid ≠ requestUid then (UserRes.forbidden, stored)
  else
    match stored with
    | none => (UserRes.notFound, none)
    | some _ => (UserRes.okRes, stored)

/-- The PUT users by uid handler: 403 on a foreign uid; otherwise keep the
body fields that are allow-listed and not undefined, 400 when none remain,
else merge them plus updatedAt into the stored document (a missing document
makes the store update throw, surfaced as a 500). -/
def putUser (stored : Option Obj) (uid requestUid : String) (body : Obj)
    (now : String) : UserRes × Option Obj :=
  if uid ≠ requestUid then (UserRes.forbidden, stored)
  else
    let updateData : Obj := allowedFields.filterMap (fun f =>
      match lookupObj body f with
      | some v => if v = JVal.undef then none else some (f, v)
      | none => none)
    if updateData = [] then (UserRes.noValidFields, stored)
    else
      match stored with
      | none => (UserRes.serverError, none)
      | some doc =>
        (UserRes.okRes,
         some (setKey (List.foldl (fun a kv => setKey a kv.1 kv.2) doc updateData)
           "updatedAt" (JVal.str now)))

/-- The DELETE users by uid handler: 403 on a foreign uid, else remove the
document. -/
def deleteUser (stored : Option Obj) (uid requestUid : String) : UserRes × Option Obj :=
  if uid ≠ requestUid then (UserRes.forbidden, stored)
  else (UserRes.okRes, none)

/-- C5: on the profile routes, each of read, update and delete answers
Forbidden exactly when the target uid differs from the authenticated subject,
and in that case the stored document is untouched; when the uids agree the
ownership check passes for all three operations. -/
theorem usersOwnershipGate (stored : Option Obj) (uid requestUid : String)
    (body : Obj) (now : String) :
    ((getUser stored uid requestUid).fst = UserRes.forbidden ↔ uid ≠ requestUid) ∧
    ((putUser stored uid requestUid body now).fst = UserRes.forbidden ↔ uid ≠ requestUid) ∧
    ((deleteUser stored uid requestUid).fst = UserRes.forbidden ↔ uid ≠ requestUid) ∧
    (uid ≠ requestUid →
      (getUser stored uid requestUid).snd = stored ∧
      (putUser stored uid requestUid body now).snd = stored ∧
      (deleteUser stored uid requestUid).snd = stored) := by
  by_cases h : uid = requestUid
  · subst h
    refine ⟨?_, ?_, ?_, by simp⟩
    · cases stored <;> simp [getUser]
    · simp only [putUser, ne_eq, not_true_eq_false, if_false]
      split
      · simp
      · cases stored <;> simp
    · simp [deleteUser]
  · simp [getUser, putUser, deleteUser, h]

/-- Concrete stored user document for the C5 witness. -/
def docAna : Obj :=
  [("firstName", JVal.str "Ana"), ("email", JVal.str "ana@b.com"),
   ("providers", JVal.arr ["manual"])]

/-- Witness for C5 at a concrete foreign-uid request: all three handlers
answer Forbidden and the document is unchanged. -/
theorem usersOwnershipGate_witness :
    ((getUser (some docAna) "u1" "u2").fst = UserRes.forbidden ↔ "u1" ≠ "u2") ∧
    ((putUser (some docAna) "u1" "u2" [("firstName", JVal.str "Eve")] "t2").fst =
        UserRes.forbidden ↔ "u1" ≠ "u2") ∧
    ((deleteUser (some docAna) "u1" "u2").fst = UserRes.forbidden ↔ "u1" ≠ "u2") ∧
    ("u1" ≠ "u2" →
      (getUser (some docAna) "u1" "u2").snd = some docAna ∧
      (putUser (some docAna) "u1" "u2" [("firstName", JVal.str "Eve")] "t2").snd =
        some docAna ∧
      (deleteUser (some docAna) "u1" "u2").snd = some docAna) :=
  usersOwnershipGate (some docAna) "u1" "u2" [("firstName", JVal.str "Eve")] "t2"

/-- A stored user-profile document for the auth routes, with the fields the
register and login handlers read and write. -/
structure StoredUser where
  firstName : String
  lastName : String
  age : Option Int
  email : String
  providers : List String
  createdAt : String
  updatedAt : String
deriving DecidableEq, Repr

/-- Outcome of the register existing-user branch. -/
inductive RegisterRes where
  | duplicateManual
  | okManualAdded
deriving DecidableEq, Repr

/-- The POST register existing-user branch: when the stored providers already
contain manual, answer 400 and return without writing; otherwise append
manual to providers and set updatedAt. -/
def registerExistingUser (u : StoredUser) (now : String) : RegisterRes × StoredUser :=
  if "manual" ∈ u.providers then (RegisterRes.duplicateManual, u)
  else (RegisterRes.okManualAdded,
    { u with providers := u.providers ++ ["manual"], updatedAt := now })

/-- C6: re-registering an email whose stored profile already has the manual
provider fails with the duplicate error and leaves the profile unchanged; an
email stored with only OAuth providers succeeds and its providers afterwards
additionally contain manual, with every previous tag kept. -/
theorem registerExistingUser_providers (u : StoredUser) (now : String) :
    ("manual" ∈ u.providers →
       registerExistingUser u now = (RegisterRes.duplicateManual, u)) ∧
    ("manual" ∉ u.providers →
       (registerExistingUser u now).fst = RegisterRes.okManualAdded ∧
       "manual" ∈ (registerExistingUser u now).snd.providers ∧
       ∀ p ∈ u.providers, p ∈ (registerExistingUser u now).snd.providers) := by
  constructor
  · intro h
    simp [registerExistingUser, h]
  · intro h
    refine ⟨by simp [registerExistingUser, h], by simp [registerExistingUser, h], ?_⟩
    intro p hp
    simp [registerExistingUser, h, List.mem_append_left _ hp]

/-- Concrete OAuth-only profile for the C6 witness. -/
def userGoogleOnly : StoredUser :=
  { firstName := "Ana"
    lastName := "Diaz"
    age := some 20
    email := "ana@b.com"
    providers := ["google"]
    createdAt := "t0"
    updatedAt := "t0" }

/-- Witness for C6: registering over a google-only profile succeeds and adds
manual; the same profile with manual already present is rejected unchanged. -/
theorem registerExistingUser_providers_witness :
    (registerExistingUser userGoogleOnly "t1").fst = RegisterRes.okManualAdded ∧
    "manual" ∈ (registerExistingUser userGoogleOnly "t1").snd.providers ∧
    ∀ p ∈ userGoogleOnly.providers,
      p ∈ (registerExistingUser userGoogleOnly "t1").snd.providers :=
  (registerExistingUser_providers userGoogleOnly "t1").2 (by decide)

/-- Outcome of the POST login handler once the account has been resolved. -/
inductive LoginRes where
  | userNotFound
  | wrongProvider
  | okLogin
deriving DecidableEq, Repr

/-- The manual-login provider check: after the identity oracle resolves the
email, a missing profile document is a 401 user-not-found; a profile whose
providers lack manual is a 401 wrong-provider; otherwise the handler proceeds
and mints a custom token. The Bool records whether a token is minted. -/
def loginResolvedUser (doc : Option StoredUser) : LoginRes × Bool :=
  match doc with
  | none => (LoginRes.userNotFound, false)
  | some u =>
    if "manual" ∈ u.providers then (LoginRes.okLogin, true)
    else (LoginRes.wrongProvider, false)

/-- The error message each non-success login outcome carries. -/
def loginErrorMessage : LoginRes → Option String
  | LoginRes.userNotFound => some "User not found"
  | LoginRes.wrongProvider => some "Please use your original sign-in method"
  | LoginRes.okLogin => none

/-- C8: a manual login resolving to an existing profile whose providers do
not contain manual fails with the wrong-provider outcome, mints no session
credential, and its message directs the caller to the original sign-in
method. -/
theorem login_wrongProvider (u : StoredUser) (h : "manual" ∉ u.providers) :
    loginResolvedUser (some u) = (LoginRes.wrongProvider, false) ∧
    loginErrorMessage (loginResolvedUser (some u)).fst =
      some "Please use your original sign-in method" := by
  simp [loginResolvedUser, h, loginErrorMessage]

/-- Witness for C8: logging in manually against the google-only profile is
rejected with the wrong-provider message and no token. -/
theorem login_wrongProvider_witness :
    loginResolvedUser (some userGoogleOnly) = (LoginRes.wrongProvider, false) ∧
    loginErrorMessage (loginResolvedUser (some userGoogleOnly)).fst =
      some "Please use your original sign-in method" :=
  login_wrongProvider userGoogleOnly (by decide)

/-- Model of the registration email pattern, a string matches when it has no
whitespace anywhere and decomposes as local at domain dot tail with all three
segments non-empty: an at sign no earlier than position one, a later dot with
at least one character between and at least one character after. -/
def emailRuleMatches (email : String) : Bool :=
  let cs := email.data
  cs.all (fun c => !c.isWhitespace) &&
  (List.range cs.length).any (fun i =>
    (List.range cs.length).any (fun j =>
      decide (1 ≤ i) && decide (i + 2 ≤ j) && decide (j + 2 ≤ cs.length) &&
      (cs.getD i ' ' == '@') && (cs.getD j ' ' == '.')))

/-- The fixed punctuation set of the registration password pattern. -/
def passwordSpecials : List Char := ['@', '$', '!', '%', '*', '?', '&']

/-- A character the password pattern admits at all: ascii letter, digit, or
one of the fixed specials. -/
def passwordAllowedChar (c : Char) : Bool :=
  (decide ('a' ≤ c) && decide (c ≤ 'z')) ||
  (decide ('A' ≤ c) && decide (c ≤ 'Z')) ||
  (decide ('0' ≤ c) && decide (c ≤ '9')) ||
  passwordSpecials.contains c

/-- Model of the registration password pattern: at least eight characters,
at least one ascii lowercase letter, one uppercase letter, one digit and one
special, and every character drawn from the admitted class. -/
def passwordRuleMatches (p : String) : Bool :=
  let cs := p.data
  decide (8 ≤ cs.length) &&
  cs.any (fun c => decide ('a' ≤ c) && decide (c ≤ 'z')) &&
  cs.any (fun c => decide ('A' ≤ c) && decide (c ≤ 'Z')) &&
  cs.any (fun c => decide ('0' ≤ c) && decide (c ≤ '9')) &&
  cs.any (fun c => passwordSpecials.contains c) &&
  cs.all passwordAllowedChar

/-- The age gate of the register handler: the body age is first run through
the JS truthiness test, so zero (and an absent age) is treated as not
supplied; a supplied non-zero age below thirteen fails. -/
def ageGateFails (age : Option Int) : Bool :=
  match age with
  | none => false
  | some a => if a = 0 then false else decide (a < 13)

/-- Outcome of the validation phase of the register handler, one constructor
per distinct 400 message plus pass. -/
inductive ValidationOutcome where
  | missingFields
  | badEmail
  | badPassword
  | badAge
  | pass
deriving DecidableEq, Repr

/-- The validation phase of POST register, in handler order: required fields,
email pattern, password pattern, age gate. -/
def validateRegistration (email password : String) (age : Option Int) :
    ValidationOutcome :=
  if email == "" || password == "" then ValidationOutcome.missingFields
  else if !emailRuleMatches email then ValidationOutcome.badEmail
  else if !passwordRuleMatches password then ValidationOutcome.badPassword
  else if ageGateFails age then ValidationOutcome.badAge
  else ValidationOutcome.pass

/-- What the register handler does next: the identity oracle is consulted
only when every validation gate has passed. -/
inductive RegisterGate where
  | rejected (o : ValidationOutcome)
  | oracleLookup
deriving DecidableEq, Repr

/-- Sequencing of the register handler: a validation failure returns at once,
only pass reaches the identity oracle lookup. -/
def registerValidationGate (email password : String) (age : Option Int) :
    RegisterGate :=
  match validateRegistration email password age with
  | ValidationOutcome.pass => RegisterGate.oracleLookup
  | o => RegisterGate.rejected o

/-- C7 counterexample: age zero is supplied and below thirteen, yet with a
valid email and password the validation phase passes and the handler goes on
to the identity oracle, because the JS truthiness test treats zero as absent. -/
theorem validateRegistration_age_zero_cex :
    (some (0 : Int)) ≠ (none : Option Int) ∧ (0 : Int) < 13 ∧
    validateRegistration "a@b.com" "Abcdef1!" (some 0) = ValidationOutcome.pass ∧
    registerValidationGate "a@b.com" "Abcdef1!" (some 0) = RegisterGate.oracleLookup := by
  decide

theorem validateRegistration_pass_parts (email password : String) (age : Option Int)
    (h : validateRegistration email password age = ValidationOutcome.pass) :
    emailRuleMatches email = true ∧ passwordRuleMatches password = true ∧
    ageGateFails age = false := by
  unfold validateRegistration at h
  split at h
  · cases h
  · split at h
    · cases h
    · split at h
      · cases h
      · split at h
        · cases h
        · simp_all

theorem passwordRule_true_parts (p : String) (h : passwordRuleMatches p = true) :
    8 ≤ p.data.length ∧
    (∃ c ∈ p.data, 'a' ≤ c ∧ c ≤ 'z') ∧
    (∃ c ∈ p.data, 'A' ≤ c ∧ c ≤ 'Z') ∧
    (∃ c ∈ p.data, '0' ≤ c ∧ c ≤ '9') ∧
    (∃ c ∈ p.data, c ∈ passwordSpecials) := by
  simp only [passwordRuleMatches, Bool.and_eq_true, List.any_eq_true,
    decide_eq_true_eq] at h
  obtain ⟨c, hc, hc2⟩ := h.1.2
  exact ⟨h.1.1.1.1.1, h.1.1.1.1.2, h.1.1.1.2, h.1.1.2,
    ⟨c, hc, List.mem_of_elem_eq_true hc2⟩⟩

/-- C7 (amended): a register request whose email fails the address pattern,
or whose password is shorter than eight characters or lacks a lowercase
letter, an uppercase letter, a digit or a special from the fixed set, or that
supplies a non-zero age below thirteen, is rejected by the validation phase
with its specific 400 outcome and never reaches the identity oracle. A
supplied age of exactly zero escapes the gate through JS truthiness. -/
theorem validateRegistration_rejects (email password : String) (age : Option Int)
    (h : emailRuleMatches email = false
       ∨ password.length < 8
       ∨ (∀ c ∈ password.data, ¬('a' ≤ c ∧ c ≤ 'z'))
       ∨ (∀ c ∈ password.data, ¬('A' ≤ c ∧ c ≤ 'Z'))
       ∨ (∀ c ∈ password.data, ¬('0' ≤ c ∧ c ≤ '9'))
       ∨ (∀ c ∈ password.data, c ∉ passwordSpecials)
       ∨ (∃ a, age = some a ∧ a ≠ 0 ∧ a < 13)) :
    validateRegistration email password age ≠ ValidationOutcome.pass ∧
    registerValidationGate email password age =
      RegisterGate.rejected (validateRegistration email password age) := by
  have hnp : validateRegistration email password age ≠ ValidationOutcome.pass := by
    intro hpass
    obtain ⟨he, hp, ha⟩ := validateRegistration_pass_parts email password age hpass
    obtain ⟨hlen, hlow, hup, hdig, hsym⟩ := passwordRule_true_parts password hp
    rcases h with h | h | h | h | h | h | h
    · rw [he] at h
      cases h
    · have hl : password.data.length = password.length := rfl
      omega
    · obtain ⟨c, hc, hc2⟩ := hlow
      exact h c hc hc2
    · obtain ⟨c, hc, hc2⟩ := hup
      exact h c hc hc2
    · obtain ⟨c, hc, hc2⟩ := hdig
      exact h c hc hc2
    · obtain ⟨c, hc, hc2⟩ := hsym
      exact h c hc hc2
    · obtain ⟨a, rfl, h0, hlt⟩ := h
      simp only [ageGateFails, if_neg h0, decide_eq_false_iff_not] at ha
      exact ha hlt
  refine ⟨hnp, ?_⟩
  unfold registerValidationGate
  cases hv : validateRegistration email password age <;> simp_all

/-- Witness for C7 (amended): an email without an at sign is rejected before
the oracle. -/
theorem validateRegistration_rejects_witness :
    validateRegistration "not-an-email" "Abcdef1!" none ≠ ValidationOutcome.pass ∧
    registerValidationGate "not-an-email" "Abcdef1!" none =
      RegisterGate.rejected (validateRegistration "not-an-email" "Abcdef1!" none) :=
  validateRegistration_rejects "not-an-email" "Abcdef1!" none (Or.inl (by decide))
